import Mathlib

/-!
Verification of the tunnel supervisor program (`main.go`): configuration
loading and validation, the managed-process stop protocol, local UDP-bridge
construction and teardown, SSH argument assembly, the port prober, and the
supervisor reconnect loop, shallowly embedded as executable Lean functions.
-/

namespace Tut

/-- One TCP forward entry of the YAML configuration (`tcp_forwards`). -/
structure TCPForward where
  remotePort : Int
  localHost : String
  localPort : Int
deriving DecidableEq, Repr

/-- One UDP forward entry of the YAML configuration (`udp_forwards`). -/
structure UDPForward where
  udpPublicPort : Int
  localHost : String
  localUDPPort : Int
  wrapTCPPort : Int
deriving DecidableEq, Repr

/-- The `vps:` section of the configuration. -/
structure VPSConfig where
  host : String
  user : String
  port : Int
  sshKey : String
  strictHostKey : String
deriving DecidableEq, Repr

/-- The whole parsed YAML configuration (`Config` in the source). -/
structure Config where
  vps : VPSConfig
  reconnectDelaySeconds : Int
  tcpForwards : List TCPForward
  udpForwards : List UDPForward
deriving DecidableEq, Repr

/-- `isPort` from the source: a port is valid when it lies in 1..65535. -/
def isPort (p : Int) : Bool :=
  p ≥ 1 && p ≤ 65535

/-- The default-application step of `loadConfig` (the part after YAML
parsing succeeds): port 0 becomes 22, empty strict-hostkey policy becomes
"accept-new", a non-positive reconnect delay becomes 2. -/
def applyDefaults (c : Config) : Config :=
  let c1 := if c.vps.port == 0 then { c with vps := { c.vps with port := 22 } } else c
  let c2 := if c1.vps.strictHostKey == "" then
      { c1 with vps := { c1.vps with strictHostKey := "accept-new" } } else c1
  if c2.reconnectDelaySeconds ≤ 0 then { c2 with reconnectDelaySeconds := 2 } else c2

/-- `loadConfig` after the OS read: `parsed` is the outcome of YAML
unmarshalling (`none` when parsing failed); on success the defaults are
applied before the config is returned. -/
def loadConfig (parsed : Option Config) : Option Config :=
  parsed.map applyDefaults

/-- Validity of one TCP forward as checked by `validateConfig`. -/
def validTCP (f : TCPForward) : Bool :=
  isPort f.remotePort && isPort f.localPort && !(f.localHost == "")

/-- Validity of one UDP forward as checked by `validateConfig`. -/
def validUDP (u : UDPForward) : Bool :=
  isPort u.udpPublicPort && isPort u.localUDPPort && isPort u.wrapTCPPort
    && !(u.localHost == "")

/-- `validateConfig` from the source. `keyOk` abstracts the `os.Stat`
check that the SSH key path exists and is not a directory. The checks run
in source order and the first failure is reported. -/
def validateConfig (keyOk : String → Bool) (c : Config) : Except String Unit :=
  if c.vps.host == "" || c.vps.user == "" || c.vps.sshKey == "" then
    .error "missing vps.host, vps.user or vps.ssh_key"
  else if !isPort c.vps.port then
    .error ("invalid vps.port: " ++ toString c.vps.port)
  else if !keyOk c.vps.sshKey then
    .error ("SSH key not readable: " ++ c.vps.sshKey)
  else match c.tcpForwards.find? (fun f => !validTCP f) with
    | some f => .error ("invalid tcp_forward: remote_port=" ++ toString f.remotePort)
    | none => match c.udpForwards.find? (fun u => !validUDP u) with
      | some u => .error ("invalid udp_forward: udp_public_port=" ++ toString u.udpPublicPort)
      | none => .ok ()

/-- A wrap-port collision in the sense of the specification: some UDP
forward's `wrap_tcp_port` equals another UDP forward's `wrap_tcp_port`, or
equals some TCP forward's `local_port` or `remote_port`. -/
def hasWrapCollision (c : Config) : Bool :=
  (c.udpForwards.enum.any fun p =>
    c.udpForwards.enum.any fun q =>
      p.1 ≠ q.1 && p.2.wrapTCPPort == q.2.wrapTCPPort)
  || (c.udpForwards.any fun u =>
      c.tcpForwards.any fun f =>
        u.wrapTCPPort == f.localPort || u.wrapTCPPort == f.remotePort)

/-! ### SSH argument builder -/

/-- The fixed leading options of the SSH argument vector built by
`buildSSHArgs`. -/
def sshBase (c : Config) : List String :=
  ["-i", c.vps.sshKey,
   "-p", toString c.vps.port,
   "-o", "BatchMode=yes",
   "-o", "ExitOnForwardFailure=yes",
   "-o", "ServerAliveInterval=15",
   "-o", "ServerAliveCountMax=3",
   "-o", "StrictHostKeyChecking=" ++ c.vps.strictHostKey,
   "-T"]

/-- The reverse-forward mapping string emitted for a TCP forward:
`0.0.0.0:remote_port:local_host:local_port`. -/
def tcpRMapping (f : TCPForward) : String :=
  "0.0.0.0:" ++ toString f.remotePort ++ ":" ++ f.localHost ++ ":" ++ toString f.localPort

/-- The reverse-forward mapping string emitted for a UDP forward: the wrap
TCP port on the VPS loopback mapped to the same port on the local loopback. -/
def udpRMapping (u : UDPForward) : String :=
  "127.0.0.1:" ++ toString u.wrapTCPPort ++ ":127.0.0.1:" ++ toString u.wrapTCPPort

/-- `buildSSHArgs` from the source: the fixed options, then one `-R` pair
per TCP forward, then one `-R` pair per UDP forward, plus the
`user@host` target. A pure function of the configuration. -/
def buildSSHArgs (c : Config) : List String × String :=
  let args0 := sshBase c
  let args1 := c.tcpForwards.foldl (fun acc f => acc ++ ["-R", tcpRMapping f]) args0
  let args2 := c.udpForwards.foldl (fun acc u => acc ++ ["-R", udpRMapping u]) args1
  (args2, c.vps.user ++ "@" ++ c.vps.host)

/-- Extract the reverse-forward specifications from an SSH argument list:
every element immediately following a `-R` flag. -/
def rEntries : List String → List String
  | [] => []
  | [_] => []
  | a :: b :: rest =>
    if a == "-R" then b :: rEntries rest else rEntries (b :: rest)

/-! ### Managed processes and the stop protocol

`child` wraps a spawned command together with the list of filesystem paths
(FIFOs, and possibly the temp directory) to reclaim. `stop` sends SIGTERM,
waits out a grace period racing the process's exit, force-kills on timeout,
and then — only on the force-kill path, because the graceful branch of the
`select` returns early — removes the registered paths that still exist. -/

/-- The filesystem paths managed by this run: the temporary FIFO directory,
the per-forward FIFO files inside it, and append-mode log files. -/
inductive RPath
  | tmpDir
  | pipe (publicPort : Int)
  | logFile (tag : String)
deriving DecidableEq, Repr

/-- Whether a path denotes a directory (`os.Stat(...).IsDir()`). -/
def RPath.isDirPath : RPath → Bool
  | .tmpDir => true
  | _ => false

/-- Whether path `q` lies inside directory `d`: the FIFO files live inside
the temporary directory, so `os.RemoveAll` on the directory removes them. -/
def RPath.isUnder (q d : RPath) : Bool :=
  match d, q with
  | .tmpDir, .pipe _ => true
  | _, _ => false

/-- The status of a spawned OS process as the stop protocol sees it:
never started (`cmd` or `cmd.Process` is nil), running — and then either
exiting on SIGTERM within the grace period or ignoring it — or already
exited. -/
inductive ProcStatus
  | notStarted
  | running (diesOnTerm : Bool)
  | exited
deriving DecidableEq, Repr

/-- `child` from the source: a spawned command, its symbolic tag, its
argument vector, and the paths to clean up on termination. -/
structure Child where
  status : ProcStatus
  tag : String
  args : List String
  fifos : List RPath
deriving DecidableEq, Repr

/-- The observable actions of one `stop` call, in order. -/
inductive StopEvent
  | sigterm
  | kill
  | removeFile (p : RPath)
  | removeDirAll (p : RPath)
deriving DecidableEq, Repr

/-- `os.Remove` / `os.RemoveAll` of a single registered path, guarded by
the `os.Stat` existence check: nothing happens when the path is absent;
a directory is removed together with everything inside it. -/
def removeOne (p : RPath) (fs : List RPath) : List RPath × List StopEvent :=
  if fs.contains p then
    if p.isDirPath then
      (fs.filter (fun q => !(q == p || q.isUnder p)), [.removeDirAll p])
    else
      (fs.filter (fun q => !(q == p)), [.removeFile p])
  else (fs, [])

/-- The cleanup loop at the end of `stop`: remove each registered path in
order. -/
def removePaths : List RPath → List RPath → List RPath × List StopEvent
  | [], fs => (fs, [])
  | p :: rest, fs =>
    let r1 := removeOne p fs
    let r2 := removePaths rest r1.1
    (r2.1, r1.2 ++ r2.2)

/-- The result of one `stop` call: the child with its process status
updated, the filesystem after the call, and the actions taken. -/
structure StopResult where
  child : Option Child
  fs : List RPath
  events : List StopEvent
deriving DecidableEq, Repr

/-- `child.stop` from the source. A nil child or a never-started process
returns immediately. Otherwise SIGTERM is sent and a fresh `Wait` races the
grace timer: if the process has already exited, `Wait` returns at once and
the graceful branch returns from `stop` before the cleanup loop; the same
happens when a running process dies on SIGTERM within the grace period.
Only when the grace period elapses is the process killed, waited, and the
registered paths removed. -/
def stop (c : Option Child) (fs : List RPath) : StopResult :=
  match c with
  | none => ⟨none, fs, []⟩
  | some ch =>
    match ch.status with
    | .notStarted => ⟨some ch, fs, []⟩
    | .exited => ⟨some ch, fs, [.sigterm]⟩
    | .running diesOnTerm =>
      if diesOnTerm then
        ⟨some { ch with status := .exited }, fs, [.sigterm]⟩
      else
        let r := removePaths ch.fifos fs
        ⟨some { ch with status := .exited }, r.1, [.sigterm, .kill] ++ r.2⟩

/-- Whether an event list contains any path removal. -/
def hasRemoval (evs : List StopEvent) : Bool :=
  evs.any fun e =>
    match e with
    | .removeFile _ => true
    | .removeDirAll _ => true
    | _ => false

/-! ### Local bridge construction (`startLocalWrappers`)

The environment oracle decides, per forward index, whether each fallible
OS step succeeds (FIFO creation, opening either log file, starting either
relay process), whether the initial `os.MkdirTemp` succeeds, and whether a
spawned relay later dies on SIGTERM within a stop's grace period. -/

/-- Outcomes of the OS-level steps of one `startLocalWrappers` run,
indexed by the position of the UDP forward in the configuration. -/
structure SpawnEnv where
  mkdirTempOk : Bool
  fifoOk : Nat → Bool
  logTCPOk : Nat → Bool
  startTCPOk : Nat → Bool
  logUDPOk : Nat → Bool
  startUDPOk : Nat → Bool
  diesTCP : Nat → Bool
  diesUDP : Nat → Bool

/-- The FIFO file name used for a forward: `pipe-<udp_public_port>`. -/
def pipeName (publicPort : Int) : String :=
  "pipe-" ++ toString publicPort

/-- Argument vector of the first relay of a bridge: a loopback TCP
listener on the wrap port spliced to the FIFO. -/
def argsTCP (u : UDPForward) : List String :=
  ["-T", "30",
   "TCP4-LISTEN:" ++ toString u.wrapTCPPort ++ ",bind=127.0.0.1,reuseaddr,fork",
   "PIPE:" ++ pipeName u.udpPublicPort]

/-- Argument vector of the second relay of a bridge: the FIFO spliced to
the UDP endpoint of the local service. -/
def argsUDP (u : UDPForward) : List String :=
  ["-T", "30",
   "PIPE:" ++ pipeName u.udpPublicPort,
   "UDP:" ++ u.localHost ++ ":" ++ toString u.localUDPPort]

/-- The managed child for the TCP-listener-to-FIFO relay of forward `u`
(the `i`-th forward); it registers the forward's FIFO for cleanup. -/
def tcpChildOf (env : SpawnEnv) (i : Nat) (u : UDPForward) : Child :=
  { status := .running (env.diesTCP i)
    tag := "local-socat-tcp-" ++ toString u.udpPublicPort
    args := argsTCP u
    fifos := [.pipe u.udpPublicPort] }

/-- The managed child for the FIFO-to-UDP relay of forward `u`; it
registers no paths. -/
def udpChildOf (env : SpawnEnv) (i : Nat) (u : UDPForward) : Child :=
  { status := .running (env.diesUDP i)
    tag := "local-socat-udp-" ++ toString u.udpPublicPort
    args := argsUDP u
    fifos := [] }

/-- Stop every child of a list in order, threading the filesystem through,
as the error-path `cleanup` closure does. Returns the children with their
final statuses and the resulting filesystem. -/
def stopAllKids : List Child → List RPath → List Child × List RPath
  | [], fs => ([], fs)
  | k :: rest, fs =>
    let r := stop (some k) fs
    let r2 := stopAllKids rest r.fs
    ((r.child.getD k) :: r2.1, r2.2)

/-- Unconditional `os.RemoveAll` of the temporary FIFO directory: the
directory and every path inside it disappear. -/
def removeAllTmp (fs : List RPath) : List RPath :=
  fs.filter fun q => !(q == .tmpDir || q.isUnder .tmpDir)

/-- The `cleanup` closure of `startLocalWrappers`: stop every child
started so far, then remove the temporary directory and everything in it. -/
def cleanupRun (kids : List Child) (fs : List RPath) : List Child × List RPath :=
  let s := stopAllKids kids fs
  (s.1, removeAllTmp s.2)

/-- Outcome of a `startLocalWrappers` run: the returned value (the list of
managed children, or an error), the filesystem state at return, and every
process spawned during the call with its status at return. -/
structure WrapResult where
  res : Except String (List Child)
  fs : List RPath
  spawned : List Child
deriving Repr

/-- Whether the run returned an error. -/
def WrapResult.failed (w : WrapResult) : Bool :=
  match w.res with
  | .error _ => true
  | .ok _ => false

/-- After the loop, the temporary directory is attached to the first
child's cleanup list so that it is reclaimed exactly once. -/
def attachTmp : List Child → List Child
  | [] => []
  | k :: rest => { k with fifos := k.fifos ++ [.tmpDir] } :: rest

/-- The per-forward loop of `startLocalWrappers`. For forward `u` at
index `i`: create the FIFO (removing any stale file first), open the TCP
relay's log file, start the TCP relay, open the UDP relay's log file,
start the UDP relay, and append the pair to `kids`. On any failure the
started-but-unregistered TCP relay (wrapped without paths, as the source
does) is stopped, then `cleanup` unwinds every earlier child and the
temporary directory, and the error is returned. -/
def startGo (env : SpawnEnv) (i : Nat) :
    List UDPForward → List RPath → List Child → WrapResult
  | [], fs, kids => ⟨.ok (attachTmp kids), fs, attachTmp kids⟩
  | u :: rest, fs, kids =>
    let fs0 := (removeOne (.pipe u.udpPublicPort) fs).1
    if !env.fifoOk i then
      let cl := cleanupRun kids fs0
      ⟨.error ("failed to create FIFO " ++ pipeName u.udpPublicPort), cl.2, cl.1⟩
    else
    let fs1 := RPath.pipe u.udpPublicPort :: fs0
    if !env.logTCPOk i then
      let cl := cleanupRun kids fs1
      ⟨.error "open tcp log failed", cl.2, cl.1⟩
    else
    let fs2 := RPath.logFile ("socat-local-tcp-" ++ toString u.udpPublicPort) :: fs1
    if !env.startTCPOk i then
      let cl := cleanupRun kids fs2
      ⟨.error "start tcp relay failed", cl.2, cl.1⟩
    else
    let tcpK := tcpChildOf env i u
    if !env.logUDPOk i then
      let s1 := stop (some { tcpK with tag := "cleanup", fifos := [] }) fs2
      let cl := cleanupRun kids s1.fs
      ⟨.error "open udp log failed", cl.2, cl.1 ++ [{ tcpK with status := .exited }]⟩
    else
    let fs3 := RPath.logFile ("socat-local-udp-" ++ toString u.udpPublicPort) :: fs2
    if !env.startUDPOk i then
      let s1 := stop (some { tcpK with tag := "cleanup", fifos := [] }) fs3
      let cl := cleanupRun kids s1.fs
      ⟨.error "start udp relay failed", cl.2, cl.1 ++ [{ tcpK with status := .exited }]⟩
    else
    startGo env (i + 1) rest fs3 (kids ++ [tcpK, udpChildOf env i u])

/-- `startLocalWrappers` from the source: a no-op when no UDP forwards are
configured; otherwise create the temporary FIFO directory and run the
per-forward loop. -/
def startLocalWrappers (env : SpawnEnv) (cfg : Config) : WrapResult :=
  if cfg.udpForwards.isEmpty then ⟨.ok [], [], []⟩
  else if !env.mkdirTempOk then ⟨.error "failed to create temp directory", [], []⟩
  else startGo env 0 cfg.udpForwards [.tmpDir] []

/-- The children a fully successful run returns: one TCP-listener-to-FIFO
relay and one FIFO-to-UDP relay per UDP forward, in configuration order,
with the temporary directory attached to the first child. -/
def pairsFrom (env : SpawnEnv) (i : Nat) : List UDPForward → List Child
  | [] => []
  | u :: rest => tcpChildOf env i u :: udpChildOf env i u :: pairsFrom env (i + 1) rest

/-- The value returned by a fully successful `startLocalWrappers` run. -/
def successKids (env : SpawnEnv) (cfg : Config) : List Child :=
  attachTmp (pairsFrom env 0 cfg.udpForwards)

/-! ### Shutdown sequence of `main`

On shutdown the deferred loop in `main` stops every returned child in list
order. Children later in the list are untouched until their own stop runs,
so during step `i` every child at an index greater than `i` still has its
pre-shutdown status. -/

/-- One step of the shutdown sequence: the child as it was at the start of
its own stop, the events of that stop, and the filesystem before and
after it. -/
structure ShutStep where
  child : Child
  events : List StopEvent
  fsBefore : List RPath
  fsAfter : List RPath
deriving DecidableEq, Repr

/-- Stop the children in order, recording each step. -/
def shutdownGo : List Child → List RPath → List ShutStep × List RPath
  | [], fs => ([], fs)
  | k :: rest, fs =>
    let r := stop (some k) fs
    let r2 := shutdownGo rest r.fs
    (⟨k, r.events, fs, r.fs⟩ :: r2.1, r2.2)

/-! ### Port prober (`waitLocalListen` / `dialLocal`)

Time is measured in milliseconds. `dial i` is the outcome of the `i`-th
loopback connect attempt: whether it succeeds and how long it takes; the
dialer's 150 ms timeout caps the duration. The loop polls until the
deadline passes, sleeping 75 ms after each failed attempt. The fuel
argument only bounds the structural recursion; `maxWait + 1` iterations
always suffice because every iteration advances the clock by at least
75 ms. -/

/-- `dialLocal` from the source: one loopback TCP connect-and-close with a
timeout; the attempt's duration never exceeds the 150 ms timeout. -/
def dialLocal (dial : Nat → Bool × Nat) (i : Nat) : Bool × Nat :=
  ((dial i).1, min (dial i).2 150)

/-- The polling loop of `waitLocalListen`: while the current time is
before the deadline, make one dial attempt; return success immediately
when it connects, otherwise sleep 75 ms and retry. Once the deadline has
passed, return the "port not listening" failure. The result carries the
time at which the call returns. -/
def waitGo (dial : Nat → Bool × Nat) :
    Nat → Nat → Nat → Nat → Bool × Nat
  | 0, _, now, _ => (false, now)
  | fuel + 1, i, now, deadline =>
    if now < deadline then
      let a := dialLocal dial i
      if a.1 then (true, now + a.2)
      else waitGo dial fuel (i + 1) (now + a.2 + 75) deadline
    else (false, now)

/-- `waitLocalListen` from the source: poll from time 0 against the
deadline `maxWait`. -/
def waitLocalListen (dial : Nat → Bool × Nat) (maxWait : Nat) : Bool × Nat :=
  waitGo dial (maxWait + 1) 0 0 maxWait

/-- The start time of attempt `k` counted from attempt `i` at time 0,
assuming every earlier attempt fails: each failed attempt costs its dial
duration plus the 75 ms sleep. -/
def attemptStartFrom (dial : Nat → Bool × Nat) (i : Nat) : Nat → Nat
  | 0 => 0
  | k + 1 => (dialLocal dial i).2 + 75 + attemptStartFrom dial (i + 1) k

/-- The start time of attempt `k` of a `waitLocalListen` run, assuming
attempts `0..k-1` all fail. -/
def attemptStart (dial : Nat → Bool × Nat) (k : Nat) : Nat :=
  attemptStartFrom dial 0 k

/-! ### Supervisor reconnect loop (`main`)

One `IterEnv` describes the environment of one iteration of the main
loop: whether the cancellation signal is already raised when the loop top
checks the context, whether it is raised while the SSH session runs (the
context then kills the SSH process and `runTunnel` returns an error),
whether the session otherwise ended in an error, and whether the signal is
raised during the reconnect-delay wait (the `select` then takes the
`ctx.Done` branch instead of the timer). -/

structure IterEnv where
  cancelledAtTop : Bool
  cancelledDuringSession : Bool
  sessionErr : Bool
  cancelledDuringWait : Bool

/-- Observable events of the supervisor loop: an SSH session launch, the
"Tunnel failed" log line, a reconnect delay waited out in full, and the
graceful-shutdown return. -/
inductive SupEvent
  | launch
  | tunnelFailed
  | fullDelay
  | shutdown
deriving DecidableEq, Repr

/-- One iteration of the reconnect loop in `main`: check the context at
the top; run the tunnel; on an error with the context cancelled, return;
otherwise log the failure and fall through to the reconnect `select`,
which either waits the full configured delay (and loops) or observes the
cancellation and returns at once. Returns the events of the iteration and
whether the loop continues. -/
def supIter (e : IterEnv) : List SupEvent × Bool :=
  if e.cancelledAtTop then ([.shutdown], false)
  else if e.cancelledDuringSession then ([.launch, .shutdown], false)
  else
    let evs := if e.sessionErr then [SupEvent.launch, .tunnelFailed] else [SupEvent.launch]
    if e.cancelledDuringWait then (evs ++ [.shutdown], false)
    else (evs ++ [.fullDelay], true)

/-- A finite prefix of the (unbounded) reconnect loop, driven by one
`IterEnv` per iteration; the loop stops early only when an iteration
observes the cancellation. -/
def supRun : List IterEnv → List SupEvent
  | [] => []
  | e :: rest =>
    let s := supIter e
    if s.2 then s.1 ++ supRun rest else s.1

/-! ### Concrete instances used in counterexamples and witnesses -/

/-- The UDP forward of the end-to-end scenario: public 9002, local
service 127.0.0.1:8002, wrap TCP port 10000. -/
def uEx : UDPForward :=
  { udpPublicPort := 9002, localHost := "127.0.0.1", localUDPPort := 8002, wrapTCPPort := 10000 }

/-- A second UDP forward with distinct ports. -/
def uEx2 : UDPForward :=
  { udpPublicPort := 9003, localHost := "127.0.0.1", localUDPPort := 8003, wrapTCPPort := 10001 }

/-- A TCP forward whose local port equals `uEx`'s wrap TCP port. -/
def fEx : TCPForward :=
  { remotePort := 9001, localHost := "127.0.0.1", localPort := 10000 }

/-- A well-formed VPS section. -/
def vpsEx : VPSConfig :=
  { host := "vps.example.com", user := "tunnel", port := 22
    sshKey := "/etc/ssh-tunnel/id_ed25519", strictHostKey := "accept-new" }

/-- A configuration whose TCP forward's local port collides with the UDP
forward's wrap TCP port. -/
def cfgCollide : Config :=
  { vps := vpsEx, reconnectDelaySeconds := 2, tcpForwards := [fEx], udpForwards := [uEx] }

/-- A configuration with a single UDP forward and no TCP forwards. -/
def cfgU1 : Config :=
  { vps := vpsEx, reconnectDelaySeconds := 2, tcpForwards := [], udpForwards := [uEx] }

/-- A configuration with two UDP forwards. -/
def cfgU2 : Config :=
  { vps := vpsEx, reconnectDelaySeconds := 2, tcpForwards := [], udpForwards := [uEx, uEx2] }

/-- A parsed configuration before defaults: port, strict-hostkey policy
and reconnect delay all unset. -/
def cfgZero : Config :=
  { vps := { host := "vps.example.com", user := "tunnel", port := 0
             sshKey := "/etc/ssh-tunnel/id_ed25519", strictHostKey := "" }
    reconnectDelaySeconds := 0, tcpForwards := [], udpForwards := [] }

/-- An environment in which every OS step succeeds; spawned TCP relays
ignore SIGTERM (they are force-killed on stop) while UDP relays exit
gracefully. -/
def envOK : SpawnEnv :=
  { mkdirTempOk := true
    fifoOk := fun _ => true, logTCPOk := fun _ => true, startTCPOk := fun _ => true
    logUDPOk := fun _ => true, startUDPOk := fun _ => true
    diesTCP := fun _ => false, diesUDP := fun _ => true }

/-- Like `envOK`, except that starting the UDP relay of the second forward
fails. -/
def envFail2 : SpawnEnv :=
  { envOK with startUDPOk := fun i => !(i == 1) }

/-- A child holding one FIFO whose process exits on SIGTERM within the
grace period. -/
def chGraceful : Child :=
  { status := .running true, tag := "local-socat-tcp-9002", args := argsTCP uEx
    fifos := [.pipe 9002] }

/-- The successful two-bridge construction for `cfgU2` under `envOK`. -/
def wrapRunC4 : WrapResult := startLocalWrappers envOK cfgU2

/-- The children returned by that run: both relays of bridge 9002 (the
first holding its FIFO and the temp directory), then both relays of
bridge 9003 (the first holding its FIFO). -/
def kidsC4 : List Child :=
  match wrapRunC4.res with
  | .ok ks => ks
  | .error _ => []

/-- The recorded shutdown steps of that run. -/
def stepsC4 : List ShutStep :=
  (shutdownGo kidsC4 wrapRunC4.fs).1

/-- The first shutdown step of that run: the first TCP relay (which
ignores SIGTERM) is force-killed, its registered FIFO is removed, and the
`RemoveAll` of its registered temporary directory also sweeps away the
second bridge's FIFO. -/
def s0C4 : ShutStep where
  child := { status := .running false, tag := "local-socat-tcp-9002", args := argsTCP uEx
             fifos := [.pipe 9002, .tmpDir] }
  events := [.sigterm, .kill, .removeFile (.pipe 9002), .removeDirAll .tmpDir]
  fsBefore := [.logFile "socat-local-udp-9003", .logFile "socat-local-tcp-9003",
    .pipe 9003, .logFile "socat-local-udp-9002", .logFile "socat-local-tcp-9002",
    .pipe 9002, .tmpDir]
  fsAfter := [.logFile "socat-local-udp-9003", .logFile "socat-local-tcp-9003",
    .logFile "socat-local-udp-9002", .logFile "socat-local-tcp-9002"]

/-- A dial oracle that never connects: the first attempt fails instantly,
every later attempt runs into the full 150 ms timeout. -/
def dialCE : Nat → Bool × Nat :=
  fun i => (false, if i == 0 then 0 else 150)

/-- A dial oracle whose third attempt (index 2) succeeds; every attempt
takes 10 ms. -/
def dialW : Nat → Bool × Nat :=
  fun i => (i == 2, 10)

/-- A loop iteration during which the cancellation signal arrives while
the reconnect delay is being waited out. -/
def eWait : IterEnv :=
  { cancelledAtTop := false, cancelledDuringSession := false
    sessionErr := true, cancelledDuringWait := true }

/-- A loop iteration in which the session fails and the delay is waited
out in full. -/
def eLoop : IterEnv :=
  { cancelledAtTop := false, cancelledDuringSession := false
    sessionErr := true, cancelledDuringWait := false }

/-! ## Theorems -/

/-- C10: for every configuration that parses, `loadConfig` applies the
defaults before returning: a zero `vps.port` becomes 22 (a valid port), an
empty `strict_hostkey` becomes "accept-new", a non-positive
`reconnect_delay_seconds` becomes 2, all other values are preserved, and
the returned configuration always has a strictly positive reconnect
delay. -/
theorem loadConfig_applies_defaults (c : Config) :
    0 < (applyDefaults c).reconnectDelaySeconds ∧
    (c.vps.port = 0 → (applyDefaults c).vps.port = 22 ∧ isPort (applyDefaults c).vps.port = true) ∧
    (c.vps.port ≠ 0 → (applyDefaults c).vps.port = c.vps.port) ∧
    (c.vps.strictHostKey = "" → (applyDefaults c).vps.strictHostKey = "accept-new") ∧
    (c.vps.strictHostKey ≠ "" → (applyDefaults c).vps.strictHostKey = c.vps.strictHostKey) ∧
    (c.reconnectDelaySeconds ≤ 0 → (applyDefaults c).reconnectDelaySeconds = 2) ∧
    (0 < c.reconnectDelaySeconds →
      (applyDefaults c).reconnectDelaySeconds = c.reconnectDelaySeconds) ∧
    loadConfig (some c) = some (applyDefaults c) ∧
    loadConfig none = none := by
  by_cases hA : c.vps.port = 0 <;> by_cases hB : c.vps.strictHostKey = "" <;>
    by_cases hC : c.reconnectDelaySeconds ≤ 0 <;>
      simp [applyDefaults, loadConfig, isPort, hA, hB, hC] <;> omega

/-- Witness for C10 at a concrete parsed configuration with all three
values unset. -/
theorem loadConfig_applies_defaults_witness :
    0 < (applyDefaults cfgZero).reconnectDelaySeconds ∧
    (applyDefaults cfgZero).vps.port = 22 ∧
    (applyDefaults cfgZero).vps.strictHostKey = "accept-new" ∧
    (applyDefaults cfgZero).reconnectDelaySeconds = 2 := by
  have h := loadConfig_applies_defaults cfgZero
  exact ⟨h.1, (h.2.1 rfl).1, h.2.2.2.1 rfl, h.2.2.2.2.2.1 (by decide)⟩

/-- C1 (code bug): `validateConfig` performs no wrap-port collision check.
`cfgCollide` has a UDP forward whose `wrap_tcp_port` (10000) equals a TCP
forward's `local_port` (10000), yet validation succeeds instead of
returning an error as the specification requires. -/
theorem validateConfig_accepts_wrap_collision :
    hasWrapCollision cfgCollide = true ∧
    validateConfig (fun _ => true) cfgCollide = .ok () := by
  exact ⟨by decide, rfl⟩

/-- C2 (code bug): when the process exits gracefully on SIGTERM within
the grace period, `stop` takes the `done` branch of its `select`, which
returns before the cleanup loop: the process has fully exited yet the
registered FIFO path stays on the filesystem and no removal is attempted.
Only the force-kill branch (same child, but ignoring SIGTERM) removes the
path. -/
theorem stop_graceful_skips_cleanup :
    (stop (some chGraceful) [.tmpDir, .pipe 9002]).child
      = some { chGraceful with status := .exited } ∧
    (stop (some chGraceful) [.tmpDir, .pipe 9002]).fs = [.tmpDir, .pipe 9002] ∧
    (stop (some chGraceful) [.tmpDir, .pipe 9002]).events = [.sigterm] ∧
    (stop (some { chGraceful with status := .running false })
      [.tmpDir, .pipe 9002]).fs = [.tmpDir] := by
  exact ⟨rfl, by decide, by decide, by decide⟩

/-- C8: a second `stop` on an already-stopped child is a no-op — it does
not change the filesystem and attempts no deletion; `stop` on a nil child
or on a child whose process was never started returns without any action.
(`stop` is a total function, so no call can panic.) -/
theorem stop_idempotent (c : Option Child) (fs : List RPath) :
    (stop (stop c fs).child (stop c fs).fs).fs = (stop c fs).fs ∧
    hasRemoval (stop (stop c fs).child (stop c fs).fs).events = false ∧
    (stop none fs).fs = fs ∧ (stop none fs).events = [] ∧
    (∀ ch : Child, ch.status = .notStarted → stop (some ch) fs = ⟨some ch, fs, []⟩) := by
  refine ⟨?_, ?_, by simp [stop], by simp [stop], fun ch h => by simp [stop, h]⟩ <;>
  · cases c with
    | none => simp [stop, hasRemoval]
    | some ch =>
      cases hst : ch.status with
      | notStarted => simp [stop, hst, hasRemoval]
      | exited => simp [stop, hst, hasRemoval]
      | running d => cases d <;> simp [stop, hst, hasRemoval]

/-- Witness for C8: a concrete double stop and a concrete never-started
child. -/
theorem stop_idempotent_witness :
    (stop (stop (some chGraceful) [RPath.pipe 9002]).child
      (stop (some chGraceful) [RPath.pipe 9002]).fs).fs
      = (stop (some chGraceful) [RPath.pipe 9002]).fs ∧
    stop (some { chGraceful with status := .notStarted }) []
      = ⟨some { chGraceful with status := .notStarted }, [], []⟩ := by
  exact ⟨(stop_idempotent (some chGraceful) [RPath.pipe 9002]).1,
    (stop_idempotent (some chGraceful) []).2.2.2.2
      { chGraceful with status := .notStarted } rfl⟩

/-- C7: if the cancellation signal is raised while the supervisor waits
out the reconnect delay, the iteration ends in the shutdown return: the
run is exactly the events of that iteration no matter what later
iterations would have done, exactly one launch happened, the delay timer
never fires in full, and the last event is the shutdown. -/
theorem supervisor_cancel_in_reconnect_wait (e : IterEnv) (rest : List IterEnv)
    (h1 : e.cancelledAtTop = false) (h2 : e.cancelledDuringSession = false)
    (h3 : e.cancelledDuringWait = true) :
    supRun (e :: rest) = (supIter e).1 ∧
    (supIter e).1.count SupEvent.launch = 1 ∧
    SupEvent.fullDelay ∉ (supIter e).1 ∧
    (supIter e).1.getLast? = some SupEvent.shutdown := by
  cases hs : e.sessionErr <;>
    simp [supRun, supIter, h1, h2, h3, hs]

/-- Witness for C7: cancellation during the wait of the first iteration
ends the run even though a further iteration was scheduled. -/
theorem supervisor_cancel_in_reconnect_wait_witness :
    supRun [eWait, eLoop] = [SupEvent.launch, SupEvent.tunnelFailed, SupEvent.shutdown] := by
  have h := supervisor_cancel_in_reconnect_wait eWait [eLoop] rfl rfl rfl
  rw [h.1]; rfl

/-- Scanning past a head that is not the `-R` flag. -/
theorem rEntries_cons_ne (a : String) (t : List String) (h : (a == "-R") = false) :
    rEntries (a :: t) = rEntries t := by
  cases t with
  | nil => simp [rEntries]
  | cons b rest => simp [rEntries, h]

/-- A fold appending an `-R` pair per element is the flattened pair list. -/
theorem foldl_rpair {α : Type} (mf : α → String) (l : List α) :
    ∀ init : List String,
      l.foldl (fun acc f => acc ++ ["-R", mf f]) init
        = init ++ l.flatMap (fun f => ["-R", mf f]) := by
  induction l with
  | nil => intro init; simp
  | cons f rest ih => intro init; simp [List.foldl, ih]

/-- Scanning a block of `-R` pairs extracts exactly the mapped values. -/
theorem rEntries_bind_pairs {α : Type} (mf : α → String) (l : List α) :
    ∀ s : List String,
      rEntries (l.flatMap (fun f => ["-R", mf f]) ++ s) = l.map mf ++ rEntries s := by
  induction l with
  | nil => intro s; simp
  | cons f rest ih =>
    intro s
    simp only [List.flatMap_cons, List.cons_append, List.nil_append, List.map_cons]
    simp only [rEntries, beq_self_eq_true, if_true]
    rw [ih]

/-- The option value `StrictHostKeyChecking=…` is never the `-R` flag. -/
theorem strictOpt_ne_R (s : String) :
    (("StrictHostKeyChecking=" ++ s) == "-R") = false := by
  refine beq_eq_false_iff_ne.mpr fun h => ?_
  have h2 : ("StrictHostKeyChecking=" ++ s).length = "-R".length := by rw [h]
  rw [String.length_append] at h2
  have h3 : ("StrictHostKeyChecking=").length = 22 := by decide
  have h4 : ("-R").length = 2 := by decide
  omega

/-- C6: the SSH argument vector built by `buildSSHArgs` carries exactly
one reverse-forward entry per TCP forward, mapping the public VPS
`remote_port` to `local_host:local_port`, followed by exactly one entry
per UDP forward mapping the wrap TCP port on the VPS loopback to the same
port on the local loopback, and no other forwards; the target is
`user@host`. (The hypotheses only rule out a key path or port rendering
that is literally the string `-R`, which would confuse any argument
scan.) -/
theorem buildSSHArgs_reverse_forwards (c : Config)
    (hk : (c.vps.sshKey == "-R") = false)
    (hp : (toString c.vps.port == "-R") = false) :
    rEntries (buildSSHArgs c).1
      = c.tcpForwards.map tcpRMapping ++ c.udpForwards.map udpRMapping ∧
    (rEntries (buildSSHArgs c).1).length
      = c.tcpForwards.length + c.udpForwards.length ∧
    (buildSSHArgs c).2 = c.vps.user ++ "@" ++ c.vps.host := by
  have hb : (buildSSHArgs c).1
      = sshBase c ++ (c.tcpForwards.flatMap (fun f => ["-R", tcpRMapping f])
          ++ c.udpForwards.flatMap (fun u => ["-R", udpRMapping u])) := by
    simp [buildSSHArgs, foldl_rpair, List.append_assoc]
  have he : rEntries (buildSSHArgs c).1
      = c.tcpForwards.map tcpRMapping ++ c.udpForwards.map udpRMapping := by
    rw [hb, sshBase]
    simp only [List.cons_append, List.nil_append]
    rw [rEntries_cons_ne _ _ (by decide), rEntries_cons_ne _ _ hk,
      rEntries_cons_ne _ _ (by decide), rEntries_cons_ne _ _ hp,
      rEntries_cons_ne _ _ (by decide), rEntries_cons_ne _ _ (by decide),
      rEntries_cons_ne _ _ (by decide), rEntries_cons_ne _ _ (by decide),
      rEntries_cons_ne _ _ (by decide), rEntries_cons_ne _ _ (by decide),
      rEntries_cons_ne _ _ (by decide), rEntries_cons_ne _ _ (by decide),
      rEntries_cons_ne _ _ (by decide), rEntries_cons_ne _ _ (strictOpt_ne_R _),
      rEntries_cons_ne _ _ (by decide)]
    rw [rEntries_bind_pairs]
    have h0 : c.udpForwards.flatMap (fun u => ["-R", udpRMapping u])
        = c.udpForwards.flatMap (fun u => ["-R", udpRMapping u]) ++ [] := by simp
    rw [h0, rEntries_bind_pairs]
    simp [rEntries]
  refine ⟨he, ?_, rfl⟩
  rw [he]; simp

/-- Witness for C6 at a concrete configuration with one TCP and one UDP
forward. -/
theorem buildSSHArgs_reverse_forwards_witness :
    rEntries (buildSSHArgs cfgCollide).1
      = ["0.0.0.0:9001:127.0.0.1:10000", "127.0.0.1:10000:127.0.0.1:10000"] := by
  have h := buildSSHArgs_reverse_forwards cfgCollide (by decide) (by decide)
  rw [h.1]; rfl

/-- A path that `os.Remove`/`os.RemoveAll` of a single registered path
made disappear is that path itself or lies inside it. -/
theorem removeOne_fs_removed (q : RPath) (fs : List RPath) :
    ∀ p ∈ fs, p ∉ (removeOne q fs).1 → p = q ∨ p.isUnder q = true := by
  intro p hp hout
  unfold removeOne at hout
  split at hout
  · split at hout
    · by_contra hc
      push_neg at hc
      refine hout (List.mem_filter.mpr ⟨hp, ?_⟩)
      simp [hc.1, hc.2]
    · by_contra hc
      push_neg at hc
      refine hout (List.mem_filter.mpr ⟨hp, ?_⟩)
      simp [hc.1]
  · exact absurd hp hout

/-- A path that the cleanup loop made disappear is one of the registered
paths, or lies inside one of them (inside the registered temporary
directory). -/
theorem removePaths_fs_removed (ps : List RPath) :
    ∀ (fs : List RPath) (p : RPath), p ∈ fs → p ∉ (removePaths ps fs).1 →
      ∃ q ∈ ps, p = q ∨ p.isUnder q = true := by
  induction ps with
  | nil =>
    intro fs p hp hout
    simp only [removePaths] at hout
    exact absurd hp hout
  | cons q rest ih =>
    intro fs p hp hout
    simp only [removePaths] at hout
    by_cases hmid : p ∈ (removeOne q fs).1
    · obtain ⟨r, hr, hpr⟩ := ih _ p hmid hout
      exact ⟨r, List.mem_cons_of_mem _ hr, hpr⟩
    · exact ⟨q, List.mem_cons_self q rest, removeOne_fs_removed q fs p hp hmid⟩

/-- If a `stop` call made a path disappear from the filesystem, the stop
had first sent SIGTERM and then force-killed (and reaped) its own process,
and the path was registered by the stopped child or lies inside one of its
registered directories. -/
theorem stop_fs_removed (ch : Child) (fs : List RPath) :
    ∀ p ∈ fs, p ∉ (stop (some ch) fs).fs →
      (stop (some ch) fs).events.take 2 = [.sigterm, .kill] ∧
      (p ∈ ch.fifos ∨ ∃ d ∈ ch.fifos, p.isUnder d = true) := by
  intro p hp hout
  cases hst : ch.status with
  | notStarted => simp [stop, hst] at hout; exact absurd hp hout
  | exited => simp [stop, hst] at hout; exact absurd hp hout
  | running d =>
    cases d with
    | true => simp [stop, hst] at hout; exact absurd hp hout
    | false =>
      simp only [stop, hst, Bool.false_eq_true, if_false] at hout ⊢
      refine ⟨rfl, ?_⟩
      obtain ⟨q, hq, hpq⟩ := removePaths_fs_removed ch.fifos fs p hp hout
      rcases hpq with h1 | h1
      · exact Or.inl (h1 ▸ hq)
      · exact Or.inr ⟨q, hq, h1⟩

/-- C4 amended: during shutdown, a path disappears from the filesystem
only during a stop whose child was force-killed and reaped first (events
begin SIGTERM, kill), and only if that child registered the path itself or
registered a directory containing it. Nothing constrains the other relay
processes: the paths swept away by the `RemoveAll` of the registered
temporary directory include the other bridges' FIFOs, whose own relays —
even the registering ones — may still be running (see the
counterexample), and a gracefully exiting owner removes nothing. -/
theorem shutdown_removal_only_on_forcekill (kids : List Child) (fs : List RPath) :
    ∀ s ∈ (shutdownGo kids fs).1, ∀ p ∈ s.fsBefore, p ∉ s.fsAfter →
      s.events.take 2 = [.sigterm, .kill] ∧
      (p ∈ s.child.fifos ∨ ∃ d ∈ s.child.fifos, p.isUnder d = true) := by
  induction kids generalizing fs with
  | nil => intro s hs; simp [shutdownGo] at hs
  | cons k rest ih =>
    intro s hs
    simp only [shutdownGo, List.mem_cons] at hs
    rcases hs with h1 | h2
    · subst h1
      intro p hp hout
      exact stop_fs_removed k fs p hp hout
    · exact ih _ s h2

/-- C4 counterexample: in the shutdown of the two bridges built for
`cfgU2` under `envOK`, the very first stop — of bridge 9002's TCP relay,
which holds that bridge's FIFO and the temporary directory and ignores
SIGTERM — removes bridge 9002's FIFO while that bridge's second relay
(index 1) is still running, and its `RemoveAll` of the temporary directory
also deletes bridge 9003's FIFO while both of bridge 9003's relays are
still running — including the relay (index 2) that registered that very
FIFO. The claim's "deleted only after both of the bridge's two relay
processes have exited" is false on both bridges. -/
theorem shutdown_removes_fifo_while_peer_running :
    stepsC4[0]? = some s0C4 ∧
    RPath.pipe 9002 ∈ s0C4.fsBefore ∧ RPath.pipe 9002 ∉ s0C4.fsAfter ∧
    RPath.pipe 9003 ∈ s0C4.fsBefore ∧ RPath.pipe 9003 ∉ s0C4.fsAfter ∧
    kidsC4[1]? = some (udpChildOf envOK 0 uEx) ∧
    (udpChildOf envOK 0 uEx).status = .running true ∧
    kidsC4[2]? = some (tcpChildOf envOK 1 uEx2) ∧
    (tcpChildOf envOK 1 uEx2).status = .running false ∧
    RPath.pipe 9003 ∈ (tcpChildOf envOK 1 uEx2).fifos := by
  exact ⟨by decide, by decide, by decide, by decide, by decide,
    by decide, rfl, by decide, rfl, by decide⟩

/-- Witness for the amended C4: the disappearance of bridge 9003's FIFO in
the concrete first shutdown step implies that step began with SIGTERM and
kill. -/
theorem shutdown_removal_only_on_forcekill_witness :
    s0C4.events.take 2 = [StopEvent.sigterm, StopEvent.kill] := by
  exact (shutdown_removal_only_on_forcekill kidsC4 wrapRunC4.fs s0C4 (by decide)
    (RPath.pipe 9003) (by decide) (by decide)).1

/-- Attaching the temp directory to the first child does not change how
many children there are. -/
theorem attachTmp_length (l : List Child) : (attachTmp l).length = l.length := by
  cases l <;> simp [attachTmp]

/-- Attaching the temp directory does not change the children's tags. -/
theorem attachTmp_map_tag (l : List Child) :
    (attachTmp l).map Child.tag = l.map Child.tag := by
  cases l <;> simp [attachTmp]

/-- Each forward contributes exactly two children. -/
theorem pairsFrom_length (env : SpawnEnv) :
    ∀ (us : List UDPForward) (i : Nat), (pairsFrom env i us).length = 2 * us.length := by
  intro us
  induction us with
  | nil => intro i; simp [pairsFrom]
  | cons u rest ih => intro i; simp [pairsFrom, ih]; omega

/-- The tags of the children of a successful run, forward by forward:
first the TCP-listener-to-FIFO relay, then the FIFO-to-UDP relay. -/
theorem pairsFrom_map_tag (env : SpawnEnv) :
    ∀ (us : List UDPForward) (i : Nat),
      (pairsFrom env i us).map Child.tag
        = us.flatMap (fun u => ["local-socat-tcp-" ++ toString u.udpPublicPort,
            "local-socat-udp-" ++ toString u.udpPublicPort]) := by
  intro us
  induction us with
  | nil => intro i; simp [pairsFrom]
  | cons u rest ih => intro i; simp [pairsFrom, ih, tcpChildOf, udpChildOf]

/-- When every OS step succeeds, the per-forward loop returns all the
children accumulated so far plus one relay pair per remaining forward. -/
theorem startGo_all_ok (env : SpawnEnv)
    (hok : ∀ i, env.fifoOk i = true ∧ env.logTCPOk i = true ∧ env.startTCPOk i = true
      ∧ env.logUDPOk i = true ∧ env.startUDPOk i = true) :
    ∀ (us : List UDPForward) (i : Nat) (fs : List RPath) (kids : List Child),
      (startGo env i us fs kids).res = .ok (attachTmp (kids ++ pairsFrom env i us)) ∧
      (startGo env i us fs kids).spawned = attachTmp (kids ++ pairsFrom env i us) := by
  intro us
  induction us with
  | nil => intro i fs kids; simp [startGo, pairsFrom]
  | cons u rest ih =>
    intro i fs kids
    obtain ⟨h1, h2, h3, h4, h5⟩ := hok i
    simp only [startGo, h1, h2, h3, h4, h5, Bool.not_true, Bool.false_eq_true,
      if_false]
    have := ih (i + 1)
      (RPath.logFile ("socat-local-udp-" ++ toString u.udpPublicPort)
        :: RPath.logFile ("socat-local-tcp-" ++ toString u.udpPublicPort)
        :: RPath.pipe u.udpPublicPort :: (removeOne (.pipe u.udpPublicPort) fs).1)
      (kids ++ [tcpChildOf env i u, udpChildOf env i u])
    rw [this.1, this.2]
    simp [pairsFrom, List.append_assoc]

/-- C5: under an environment in which every OS step succeeds,
`startLocalWrappers` returns exactly one TCP-listener-to-FIFO relay and
one FIFO-to-UDP relay per UDP forward — 2×M children for M forwards, in
configuration order — and with zero UDP forwards it is a no-op: an empty
result, no error, no process spawned, no path created. -/
theorem startLocalWrappers_success (env : SpawnEnv) (cfg : Config)
    (hm : env.mkdirTempOk = true)
    (hok : ∀ i, env.fifoOk i = true ∧ env.logTCPOk i = true ∧ env.startTCPOk i = true
      ∧ env.logUDPOk i = true ∧ env.startUDPOk i = true) :
    (startLocalWrappers env cfg).res = .ok (successKids env cfg) ∧
    (successKids env cfg).length = 2 * cfg.udpForwards.length ∧
    (successKids env cfg).map Child.tag
      = cfg.udpForwards.flatMap (fun u => ["local-socat-tcp-" ++ toString u.udpPublicPort,
          "local-socat-udp-" ++ toString u.udpPublicPort]) ∧
    (cfg.udpForwards = [] → startLocalWrappers env cfg = ⟨.ok [], [], []⟩) := by
  refine ⟨?_, ?_, ?_, ?_⟩
  · unfold startLocalWrappers
    by_cases he : cfg.udpForwards.isEmpty
    · rw [if_pos he]
      have h0 : cfg.udpForwards = [] := List.isEmpty_iff.mp he
      simp [successKids, h0, pairsFrom, attachTmp]
    · rw [if_neg he]
      simp only [hm, Bool.not_true, Bool.false_eq_true, if_false]
      have := (startGo_all_ok env hok cfg.udpForwards 0 [.tmpDir] []).1
      simpa [successKids] using this
  · rw [successKids, attachTmp_length, pairsFrom_length]
  · rw [successKids, attachTmp_map_tag, pairsFrom_map_tag]
  · intro h0
    simp [startLocalWrappers, h0]

/-- Witness for C5: the two-forward configuration yields four children
with the expected tags. -/
theorem startLocalWrappers_success_witness :
    (startLocalWrappers envOK cfgU2).res = .ok (successKids envOK cfgU2) ∧
    (successKids envOK cfgU2).length = 4 ∧
    startLocalWrappers envOK { cfgU2 with udpForwards := [] } = ⟨.ok [], [], []⟩ := by
  have h := startLocalWrappers_success envOK cfgU2 rfl
    (fun i => ⟨rfl, rfl, rfl, rfl, rfl⟩)
  have h0 := startLocalWrappers_success envOK { cfgU2 with udpForwards := [] } rfl
    (fun i => ⟨rfl, rfl, rfl, rfl, rfl⟩)
  exact ⟨h.1, by rw [h.2.1]; rfl, h0.2.2.2 rfl⟩

/-- Stopping a list of started children in order leaves every one of them
exited. -/
theorem stopAllKids_statuses (kids : List Child) :
    ∀ fs, (∀ k ∈ kids, k.status ≠ .notStarted) →
      ∀ k ∈ (stopAllKids kids fs).1, k.status = .exited := by
  induction kids with
  | nil => intro fs _ k hk; simp [stopAllKids] at hk
  | cons a rest ih =>
    intro fs h k hk
    simp only [stopAllKids, List.mem_cons] at hk
    rcases hk with h1 | h2
    · subst h1
      have ha := h a (List.mem_cons_self a rest)
      cases hst : a.status with
      | notStarted => exact absurd hst ha
      | exited => simp [stop, hst]
      | running d => cases d <;> simp [stop, hst]
    · exact ih _ (fun k hk => h k (List.mem_cons_of_mem _ hk)) k h2

/-- After `os.RemoveAll` of the temporary directory, no path of the run's
FIFO tree remains. -/
theorem removeAllTmp_clean (fs : List RPath) :
    ∀ p ∈ removeAllTmp fs, (p == RPath.tmpDir || p.isUnder RPath.tmpDir) = false := by
  intro p hp
  have := (List.mem_filter.mp hp).2
  simpa using this

/-- The error-path `cleanup` closure leaves every started child exited and
neither the temporary directory nor any FIFO on the filesystem. -/
theorem cleanupRun_spec (kids : List Child) (fs : List RPath)
    (h : ∀ k ∈ kids, k.status ≠ .notStarted) :
    (∀ k ∈ (cleanupRun kids fs).1, k.status = .exited) ∧
    (∀ p ∈ (cleanupRun kids fs).2, (p == RPath.tmpDir || p.isUnder RPath.tmpDir) = false) := by
  exact ⟨fun k hk => stopAllKids_statuses kids fs h k hk,
    fun p hp => removeAllTmp_clean _ p hp⟩

/-- If the per-forward loop fails, every process spawned during the whole
call has exited and the filesystem retains neither the temporary directory
nor any FIFO. -/
theorem startGo_error_clean (env : SpawnEnv) :
    ∀ (us : List UDPForward) (i : Nat) (fs : List RPath) (kids : List Child),
      (∀ k ∈ kids, k.status ≠ .notStarted) →
      (startGo env i us fs kids).failed = true →
      (∀ k ∈ (startGo env i us fs kids).spawned, k.status = .exited) ∧
      (∀ p ∈ (startGo env i us fs kids).fs,
        (p == RPath.tmpDir || p.isUnder RPath.tmpDir) = false) := by
  intro us
  induction us with
  | nil => intro i fs kids hinv hf; simp [startGo, WrapResult.failed] at hf
  | cons u rest ih =>
    intro i fs kids hinv hf
    by_cases h1 : env.fifoOk i
    case neg =>
      simp only [startGo, h1, Bool.not_false, if_true] at hf ⊢
      exact cleanupRun_spec kids _ hinv
    case pos =>
    by_cases h2 : env.logTCPOk i
    case neg =>
      simp only [startGo, h1, h2, Bool.not_true, Bool.not_false, Bool.false_eq_true,
        if_false, if_true] at hf ⊢
      exact cleanupRun_spec kids _ hinv
    case pos =>
    by_cases h3 : env.startTCPOk i
    case neg =>
      simp only [startGo, h1, h2, h3, Bool.not_true, Bool.not_false, Bool.false_eq_true,
        if_false, if_true] at hf ⊢
      exact cleanupRun_spec kids _ hinv
    case pos =>
    by_cases h4 : env.logUDPOk i
    case neg =>
      simp only [startGo, h1, h2, h3, h4, Bool.not_true, Bool.not_false,
        Bool.false_eq_true, if_false, if_true] at hf ⊢
      have hc := cleanupRun_spec kids
        ((stop (some { tcpChildOf env i u with tag := "cleanup", fifos := [] })
          (RPath.logFile ("socat-local-tcp-" ++ toString u.udpPublicPort)
            :: RPath.pipe u.udpPublicPort
            :: (removeOne (.pipe u.udpPublicPort) fs).1)).fs) hinv
      refine ⟨?_, hc.2⟩
      intro k hk
      rcases List.mem_append.mp hk with hk1 | hk1
      · exact hc.1 k hk1
      · simp only [List.mem_singleton] at hk1; subst hk1; rfl
    case pos =>
    by_cases h5 : env.startUDPOk i
    case neg =>
      simp only [startGo, h1, h2, h3, h4, h5, Bool.not_true, Bool.not_false,
        Bool.false_eq_true, if_false, if_true] at hf ⊢
      have hc := cleanupRun_spec kids
        ((stop (some { tcpChildOf env i u with tag := "cleanup", fifos := [] })
          (RPath.logFile ("socat-local-udp-" ++ toString u.udpPublicPort)
            :: RPath.logFile ("socat-local-tcp-" ++ toString u.udpPublicPort)
            :: RPath.pipe u.udpPublicPort
            :: (removeOne (.pipe u.udpPublicPort) fs).1)).fs) hinv
      refine ⟨?_, hc.2⟩
      intro k hk
      rcases List.mem_append.mp hk with hk1 | hk1
      · exact hc.1 k hk1
      · simp only [List.mem_singleton] at hk1; subst hk1; rfl
    case pos =>
      simp only [startGo, h1, h2, h3, h4, h5, Bool.not_true, Bool.false_eq_true,
        if_false] at hf ⊢
      refine ih (i + 1) _ (kids ++ [tcpChildOf env i u, udpChildOf env i u]) ?_ hf
      intro k hk
      rcases List.mem_append.mp hk with hk1 | hk1
      · exact hinv k hk1
      · rcases List.mem_cons.mp hk1 with hk2 | hk2
        · subst hk2; simp [tcpChildOf]
        · simp only [List.mem_singleton] at hk2; subst hk2; simp [udpChildOf]

/-- C3: whenever `startLocalWrappers` returns an error — a FIFO creation,
log-file open, or relay start failed — every process spawned during the
call (across all forwards, including the just-started TCP relay of the
failing forward) has been stopped and has exited, and neither the FIFO
files nor the temporary directory remain; no partial bridge is left. -/
theorem startLocalWrappers_error_unwinds (env : SpawnEnv) (cfg : Config)
    (h : (startLocalWrappers env cfg).failed = true) :
    (∀ k ∈ (startLocalWrappers env cfg).spawned, k.status = .exited) ∧
    (∀ p ∈ (startLocalWrappers env cfg).fs,
      (p == RPath.tmpDir || p.isUnder RPath.tmpDir) = false) := by
  unfold startLocalWrappers at h ⊢
  by_cases he : cfg.udpForwards.isEmpty
  · simp [he, WrapResult.failed] at h
  · rw [if_neg he] at h ⊢
    by_cases hm : env.mkdirTempOk
    · simp only [hm, Bool.not_true, Bool.false_eq_true, if_false] at h ⊢
      exact startGo_error_clean env cfg.udpForwards 0 [.tmpDir] []
        (by intro k hk; simp at hk) h
    · simp only [hm, Bool.not_false, if_true] at h ⊢
      exact ⟨fun k hk => by simp at hk, fun p hp => by simp at hp⟩

/-- Witness for C3: with two forwards and the second forward's UDP relay
failing to start, the run errors, all four spawned processes (both relays
of the first bridge, the TCP relay of the second) have exited, and only
log files remain on disk. -/
theorem startLocalWrappers_error_unwinds_witness :
    (startLocalWrappers envFail2 cfgU2).failed = true ∧
    ((startLocalWrappers envFail2 cfgU2).spawned.all fun k => k.status == .exited) = true ∧
    ((startLocalWrappers envFail2 cfgU2).fs.all
      fun p => !(p == RPath.tmpDir || p.isUnder RPath.tmpDir)) = true := by
  have h := startLocalWrappers_error_unwinds envFail2 cfgU2 (by decide)
  refine ⟨by decide, ?_, ?_⟩
  · exact List.all_eq_true.mpr fun k hk => by simpa using h.1 k hk
  · exact List.all_eq_true.mpr fun p hp => by simpa using h.2 p hp

/-- Attempt `k` starts no earlier than `k` ms into the run: every failed
attempt costs at least the 75 ms sleep. -/
theorem attemptStartFrom_ge (dial : Nat → Bool × Nat) :
    ∀ (k i : Nat), k ≤ attemptStartFrom dial i k := by
  intro k
  induction k with
  | zero => intro i; simp [attemptStartFrom]
  | succ n ih =>
    intro i
    have := ih (i + 1)
    simp only [attemptStartFrom]
    omega

/-- The polling loop returns at most 224 ms after the deadline, whatever
the dial outcomes: the worst case is a final attempt begun just before
the deadline, running into the full 150 ms dial timeout and followed by
the 75 ms sleep. -/
theorem waitGo_time_le (dial : Nat → Bool × Nat) :
    ∀ (fuel i now dl : Nat), (waitGo dial fuel i now dl).2 ≤ max now (dl + 224) := by
  intro fuel
  induction fuel with
  | zero => intro i now dl; simp [waitGo]
  | succ f ih =>
    intro i now dl
    simp only [waitGo]
    by_cases h : now < dl
    · rw [if_pos h]
      have hm : (dialLocal dial i).2 ≤ 150 := Nat.min_le_right _ 150
      by_cases hs : (dialLocal dial i).1
      · rw [if_pos hs]
        have hb := Nat.le_max_right now (dl + 224)
        simp only
        omega
      · rw [if_neg hs]
        have hrec := ih (i + 1) (now + (dialLocal dial i).2 + 75) dl
        have hb := Nat.le_max_right now (dl + 224)
        have hcap : max (now + (dialLocal dial i).2 + 75) (dl + 224) = dl + 224 :=
          Nat.max_eq_right (by omega)
        omega
    · rw [if_neg h]
      exact Nat.le_max_left _ _

/-- When no attempt ever connects and the fuel covers the deadline, the
loop reports failure, and only once the deadline has passed. -/
theorem waitGo_allfail (dial : Nat → Bool × Nat) (hf : ∀ j, (dial j).1 = false) :
    ∀ (fuel i now dl : Nat), dl ≤ now + 75 * fuel →
      (waitGo dial fuel i now dl).1 = false ∧ dl ≤ (waitGo dial fuel i now dl).2 := by
  intro fuel
  induction fuel with
  | zero => intro i now dl h; simp [waitGo]; omega
  | succ f ih =>
    intro i now dl h
    simp only [waitGo]
    by_cases hn : now < dl
    · rw [if_pos hn]
      have ha : (dialLocal dial i).1 = false := by simp [dialLocal, hf i]
      rw [ha]
      simp only [Bool.false_eq_true, if_false]
      exact ih (i + 1) (now + (dialLocal dial i).2 + 75) dl (by omega)
    · rw [if_neg hn]
      exact ⟨rfl, by omega⟩

/-- The loop returns success at the first connecting attempt: if attempts
`0..k-1` (counted from `i`) fail, attempt `k` connects, and its start time
lies before the deadline, the loop returns success exactly when that
attempt completes. -/
theorem waitGo_first_success (dial : Nat → Bool × Nat) :
    ∀ (k i now fuel dl : Nat), k < fuel →
      (∀ j, j < k → (dial (i + j)).1 = false) → (dial (i + k)).1 = true →
      now + attemptStartFrom dial i k < dl →
      waitGo dial fuel i now dl
        = (true, now + attemptStartFrom dial i k + (dialLocal dial (i + k)).2) := by
  intro k
  induction k with
  | zero =>
    intro i now fuel dl hfuel hfail hsucc htime
    cases fuel with
    | zero => omega
    | succ f =>
      simp only [attemptStartFrom, Nat.add_zero] at htime ⊢
      simp only [waitGo, if_pos htime]
      have hs : (dialLocal dial i).1 = true := by
        simpa [dialLocal] using hsucc
      rw [hs]
      simp
  | succ n ihk =>
    intro i now fuel dl hfuel hfail hsucc htime
    cases fuel with
    | zero => omega
    | succ f =>
      have hs0 : now + attemptStartFrom dial i (n + 1) < dl := htime
      have hn : now < dl := by omega
      simp only [waitGo, if_pos hn]
      have h0 : (dialLocal dial i).1 = false := by
        have := hfail 0 (by omega)
        simpa [dialLocal] using this
      rw [h0]
      simp only [Bool.false_eq_true, if_false]
      have hrec := ihk (i + 1) (now + (dialLocal dial i).2 + 75) f dl
        (by omega)
        (fun j hj => by
          have := hfail (j + 1) (by omega)
          have hidx : i + (j + 1) = i + 1 + j := by omega
          rwa [hidx] at this)
        (by
          have hidx : i + (n + 1) = i + 1 + n := by omega
          rwa [hidx] at hsucc)
        (by
          simp only [attemptStartFrom] at hs0
          omega)
      rw [hrec]
      have hidx : i + 1 + n = i + (n + 1) := by omega
      rw [hidx]
      simp only [attemptStartFrom, Prod.mk.injEq, true_and]
      omega

/-- C9 amended: `waitLocalListen` polls a loopback connect-and-close with
a 150 ms per-attempt timeout and a 75 ms sleep between attempts (the
constants of the source); it returns success exactly when the first
connecting attempt completes, returns the "not listening" failure only
once `maxWait` has elapsed when no attempt ever connects, and never
blocks longer than `maxWait` plus one in-flight attempt plus one
inter-attempt sleep (at most `maxWait + 224` ms) — but it can block
longer than `maxWait` plus one attempt alone (see the counterexample). -/
theorem waitLocalListen_spec (dial : Nat → Bool × Nat) (w : Nat) :
    (waitLocalListen dial w).2 ≤ w + 224 ∧
    ((∀ j, (dial j).1 = false) →
      (waitLocalListen dial w).1 = false ∧ w ≤ (waitLocalListen dial w).2) ∧
    (∀ k, (∀ j, j < k → (dial j).1 = false) → (dial k).1 = true →
      attemptStart dial k < w →
      waitLocalListen dial w = (true, attemptStart dial k + (dialLocal dial k).2)) := by
  refine ⟨?_, ?_, ?_⟩
  · have := waitGo_time_le dial (w + 1) 0 0 w
    simpa [waitLocalListen] using this
  · intro hfail
    have := waitGo_allfail dial hfail (w + 1) 0 0 w (by omega)
    simpa [waitLocalListen] using this
  · intro k hfail hsucc htime
    have hk : k ≤ attemptStartFrom dial 0 k := attemptStartFrom_ge dial k 0
    have := waitGo_first_success dial k 0 0 (w + 1) w
      (by simp only [attemptStart] at htime; omega)
      (fun j hj => by simpa using hfail j hj)
      (by simpa using hsucc)
      (by simpa [attemptStart] using htime)
    simpa [waitLocalListen, attemptStart] using this

/-- C9 counterexample: with `maxWait` = 100 ms, a first attempt failing
instantly and a second failing only at the full 150 ms timeout, the call
returns at 300 ms — more than `maxWait` plus one in-flight attempt
(100 + 150 = 250 ms), because of the 75 ms sleep after the final failed
attempt. -/
theorem waitLocalListen_exceeds_attempt_bound :
    waitLocalListen dialCE 100 = (false, 300) ∧ 100 + 150 < 300 := by
  exact ⟨by decide, by decide⟩

/-- Witness for the amended C9: a concrete run whose third attempt
connects returns success at 180 ms, within the amended bound. -/
theorem waitLocalListen_spec_witness :
    waitLocalListen dialW 1000 = (true, 180) ∧ (waitLocalListen dialW 1000).2 ≤ 1224 := by
  have h := waitLocalListen_spec dialW 1000
  have h3 := h.2.2 2 (by decide) (by decide) (by decide)
  exact ⟨by rw [h3]; decide, h.1⟩

end Tut
